import Mathlib

/-!
Verification development for the phpnosql repository.

The repository ships two implementations of the same MongoDB-style document
store:

* `JsonDB`, a PHP 5.3 file-backed engine (the string constant
  `PHP_SOURCE_CODE` in the sources): collections are JSON-array files,
  queried through `match` with `$eq/$ne/$gt/$lt/$regex/$in`.
* `DbSimulator` (`src/services/dbSimulator.ts`), an in-browser TypeScript
  simulator with the analogous `match`, `insert`, `find`, `delete`.

Both are shallowly embedded below.  PHP values are modelled by `PhpVal`
(PHP arrays are ordered key/value lists, keys are ints or strings, as
produced by `json_decode(..., true)`; numeric-string keys are normalised
to ints by the decoder, which the embedding assumes).  PHP's loose
comparison (`==`, `<=`, `>=`) follows the PHP 5 type-juggling table:
null vs string compares `"" <=> string`; null/bool vs anything compares
as booleans; number vs string converts the string to a number (integer
subset modelled; the claims only exercise integer numerics); two strings
compare numerically when both are numeric strings, byte-wise otherwise;
an array is greater than any non-array.  `===` is `phpIdentical`.

JavaScript values are modelled by `JsVal` (`undefined` is `undefined`).
Relational comparison follows ECMA: ToPrimitive, then string/string
compares lexicographically, otherwise ToNumber with NaN making the
comparison false.  `===` on objects and arrays is reference equality; a
query object and a stored document never alias in the simulator, so the
embedding renders object/array strict equality as `false`.

Regular-expression engines are not embedded in full.  Both `match`
functions take an oracle `rxc : RxOracle` standing for the pattern
compiler of the host language; the embedding itself decides the cases the
claims need: PCRE's delimiter discipline (`pcreDelimOk`, so an
undelimited pattern such as "EXAMPLE" compiles to an error), JavaScript
literal patterns (no metacharacters, matched as case-insensitive
substring search with the "i" flag the simulator always passes), and
patterns with clearly unbalanced parentheses (a guaranteed JavaScript
SyntaxError).

The collection file is modelled by `FileState`: missing, unreadable, or
holding bytes whose JSON decoding is `Option PhpVal` (`none` for bytes
that do not decode).
-/

/-- Key of a PHP array: integer or string, as produced by `json_decode`. -/
inductive PhpKey where
  | i (n : Int)
  | s (v : String)
deriving DecidableEq, Repr

/-- PHP value as decoded from JSON by `json_decode($content, true)`:
null, bool, int, string, or array (ordered key/value pairs).  Floats are
outside the modelled fragment (no claim exercises them). -/
inductive PhpVal where
  | null
  | b (v : Bool)
  | i (n : Int)
  | s (v : String)
  | arr (entries : List (PhpKey × PhpVal))
deriving Repr

abbrev PhpArr := List (PhpKey × PhpVal)

/-- Equality of PHP array keys (int keys never equal string keys after
decoder normalisation). -/
def phpKeyBEq : PhpKey → PhpKey → Bool
  | .i a, .i c => a == c
  | .s a, .s c => a == c
  | _, _ => false

/-- First value stored under a key, scanning left to right. -/
def assocFind (l : PhpArr) (k : PhpKey) : Option PhpVal :=
  match l with
  | [] => none
  | (k1, v1) :: t => if phpKeyBEq k1 k then some v1 else assocFind t k

/-- Three-way byte-wise comparison of character lists (PHP `strcmp` and
JavaScript string order restricted to the code points used here). -/
def listCmpCh : List Char → List Char → Ordering
  | [], [] => .eq
  | [], _ :: _ => .lt
  | _ :: _, [] => .gt
  | a :: as, c :: cs => if a < c then .lt else if c < a then .gt else listCmpCh as cs

/-- Three-way string comparison. -/
def strCmp (a c : String) : Ordering := listCmpCh a.toList c.toList

/-- Three-way Bool comparison with FALSE < TRUE (the PHP rule for
comparisons involving null or bool). -/
def boolOrd (x y : Bool) : Ordering :=
  match x, y with
  | false, false => .eq
  | false, true => .lt
  | true, false => .gt
  | true, true => .eq

/-- Whitespace accepted by PHP in front of a numeric string. -/
def wsChar (c : Char) : Bool :=
  c = ' ' || c = '\t' || c = '\n' || c = '\r' || c = '\x0b' || c = '\x0c'

/-- Numeric value of a non-empty all-digit character list. -/
def digitsVal (l : List Char) : Nat :=
  List.foldl (fun a c => a * 10 + (c.toNat - 48)) 0 l

/-- Parse a non-empty all-digit list, `none` otherwise. -/
def parseDigits (l : List Char) : Option Nat :=
  if !l.isEmpty && l.all Char.isDigit then some (digitsVal l) else none

/-- Integer numeric strings in the PHP sense (optional leading
whitespace, optional sign, digits, nothing after).  Float and hex
numeric strings are outside the modelled fragment. -/
def phpIntOfString (s : String) : Option Int :=
  match s.toList.dropWhile wsChar with
  | '+' :: rest => (parseDigits rest).map Int.ofNat
  | '-' :: rest => (parseDigits rest).map (fun n => -(Int.ofNat n))
  | rest => (parseDigits rest).map Int.ofNat

/-- PHP string-to-number conversion used when a string meets a number in
a loose comparison: value of the longest numeric prefix, else 0. -/
def phpStrToInt (s : String) : Int :=
  match s.toList.dropWhile wsChar with
  | '+' :: rest => Int.ofNat (digitsVal (rest.takeWhile Char.isDigit))
  | '-' :: rest => -(Int.ofNat (digitsVal (rest.takeWhile Char.isDigit)))
  | rest => Int.ofNat (digitsVal (rest.takeWhile Char.isDigit))

/-- PHP boolean conversion: "" and "0" are false, the empty array is
false. -/
def phpToBool : PhpVal → Bool
  | .null => false
  | .b v => v
  | .i n => n != 0
  | .s v => v != "" && v != "0"
  | .arr l => !l.isEmpty

/-- PHP string cast `(string)$value` (an array casts to "Array"). -/
def phpToString : PhpVal → String
  | .null => ""
  | .b v => if v then "1" else ""
  | .i n => toString n
  | .s v => v
  | .arr _ => "Array"

/-- Smart PHP comparison of two strings: numeric when both are numeric
strings, byte-wise otherwise. -/
def phpSmartStrCmp (a c : String) : Ordering :=
  match phpIntOfString a, phpIntOfString c with
  | some x, some y => compare x y
  | _, _ => strCmp a c

mutual

/-- PHP identity `===`: same type and value; arrays must have the same
key/value pairs in the same order. -/
def phpIdentical : PhpVal → PhpVal → Bool
  | .null, .null => true
  | .b x, .b y => x == y
  | .i x, .i y => x == y
  | .s x, .s y => x == y
  | .arr l1, .arr l2 => phpArrIdentical l1 l2
  | _, _ => false

/-- Pairwise identity of PHP array entries. -/
def phpArrIdentical : PhpArr → PhpArr → Bool
  | [], [] => true
  | (k1, v1) :: t1, (k2, v2) :: t2 =>
      phpKeyBEq k1 k2 && phpIdentical v1 v2 && phpArrIdentical t1 t2
  | _, _ => false

end

mutual

/-- PHP 5 loose three-way comparison, per the type-juggling table, read
top to bottom: null vs string compares "" against the string; null or
bool against anything compares as booleans; int vs int numerically; int
vs string converts the string to a number; string vs string smartly; an
array against a non-array is greater; arrays compare by length first,
then value by value (`none` = uncomparable, every operator false). -/
def phpLooseCompare : PhpVal → PhpVal → Option Ordering
  | .null, .s t => some (strCmp "" t)
  | .s a, .null => some (strCmp a "")
  | .null, y => some (boolOrd false (phpToBool y))
  | x, .null => some (boolOrd (phpToBool x) false)
  | .b v, y => some (boolOrd v (phpToBool y))
  | x, .b v => some (boolOrd (phpToBool x) v)
  | .i a, .i c => some (compare a c)
  | .i a, .s t => some (compare a (phpStrToInt t))
  | .s a, .i c => some (compare (phpStrToInt a) c)
  | .s a, .s t => some (phpSmartStrCmp a t)
  | .arr l1, .arr l2 =>
      if l1.length < l2.length then some .lt
      else if l2.length < l1.length then some .gt
      else phpArrLooseCompare l1 l2
  | .arr _, _ => some .gt
  | _, .arr _ => some .lt

/-- Comparison of same-length PHP arrays: for each key of the left
operand, the right operand must hold a loosely equal value (first
difference decides; a missing key makes them uncomparable). -/
def phpArrLooseCompare : PhpArr → PhpArr → Option Ordering
  | [], _ => some .eq
  | (k, v) :: t, l2 =>
      match assocFind l2 k with
      | none => none
      | some w =>
          match phpLooseCompare v w with
          | some .eq => phpArrLooseCompare t l2
          | r => r

end

/-- PHP loose equality `==`. -/
def phpLooseEq (x y : PhpVal) : Bool := phpLooseCompare x y == some .eq

/-- PHP `<=`. -/
def phpLe (x y : PhpVal) : Bool :=
  match phpLooseCompare x y with
  | some .lt => true
  | some .eq => true
  | _ => false

/-- PHP `>=`. -/
def phpGe (x y : PhpVal) : Bool :=
  match phpLooseCompare x y with
  | some .gt => true
  | some .eq => true
  | _ => false

/-- PHP value of an array key, for the loose comparison `$op == '$eq'`
performed on `foreach` keys in `JsonDB::match`. -/
def keyToVal : PhpKey → PhpVal
  | .i n => .i n
  | .s v => .s v

/-- Loose equality between a `foreach` key and an operator name (PHP
`$op == '$eq'`): an int key 0 is loosely equal to every operator name,
since "$eq" converts to the number 0. -/
def keyEqOpStr (k : PhpKey) (op : String) : Bool :=
  phpLooseEq (keyToVal k) (.s op)

/-- Oracle for a host regular-expression engine: maps a pattern to
`none` (compilation error) or a matcher on subject strings.  The
embedding decides the cases the claims need and defers the rest. -/
abbrev RxOracle := String → Option (String → Bool)

/-- PCRE delimiter discipline: a pattern must start with a
non-alphanumeric, non-backslash, non-whitespace delimiter and contain
the matching closing delimiter later; otherwise `preg_match` reports a
compilation error (which `@preg_match` turns into `false`). -/
def pcreDelimOk (p : String) : Bool :=
  match p.toList with
  | [] => false
  | c :: rest =>
      if c.isAlphanum || c = '\\' || wsChar c then false
      else
        let closing :=
          if c = '(' then ')'
          else if c = '{' then '}'
          else if c = '[' then ']'
          else if c = '<' then '>'
          else c
        rest.contains closing

/-- Behaviour of `@preg_match($expected, $subject)` in `JsonDB::match`:
an array pattern is an error (false); a scalar pattern is cast to
string; a pattern without a valid delimiter structure is a compilation
error (false); otherwise the host PCRE engine decides. -/
def pregTest (rxc : RxOracle) (pat : PhpVal) (subj : String) : Bool :=
  match pat with
  | .arr _ => false
  | p =>
      let ps := phpToString p
      if pcreDelimOk ps then
        match rxc ps with
        | some f => f subj
        | none => false
      else false

/-- Value of `isset($doc[$key]) ? $doc[$key] : null` in `JsonDB::match`:
array lookup with a null default (a stored null also yields null, as
`isset` is false on null); a string document yields its character at an
integer offset; other scalars yield null. -/
def phpLookupVal (doc : PhpVal) (k : PhpKey) : PhpVal :=
  match doc, k with
  | .arr l, key => (assocFind l key).getD .null
  | .s str, .i n =>
      if n < 0 then .null
      else
        match str.toList.get? n.toNat with
        | some c => .s (String.mk [c])
        | none => .null
  | _, _ => .null

/-- One operator criteria array of `JsonDB::match`: the inner `foreach`
over `(operator, operand)` pairs, with the PHP loose `==` on the
operator key and the if/else-if chain of the source ($eq, $ne, $gt, $lt,
$regex, $in; anything else is silently ignored). -/
def phpClauses (rxc : RxOracle) (value : PhpVal) : PhpArr → Bool
  | [] => true
  | (opk, expected) :: rest =>
      let ok :=
        if keyEqOpStr opk "$eq" then phpIdentical value expected
        else if keyEqOpStr opk "$ne" then !phpIdentical value expected
        else if keyEqOpStr opk "$gt" then !phpLe value expected
        else if keyEqOpStr opk "$lt" then !phpGe value expected
        else if keyEqOpStr opk "$regex" then pregTest rxc expected (phpToString value)
        else if keyEqOpStr opk "$in" then
          match expected with
          | .arr l => l.any (fun kv => phpLooseEq value kv.2)
          | _ => false
        else true
      ok && phpClauses rxc value rest

/-- `JsonDB::match($doc, $query)`: conjunction over the query entries;
an array criteria is an operator mapping, any other criteria demands
identity `===` with the field value. -/
def phpMatch (rxc : RxOracle) (doc : PhpVal) : PhpArr → Bool
  | [] => true
  | (k, criteria) :: rest =>
      let value := phpLookupVal doc k
      let ok :=
        match criteria with
        | .arr ops => phpClauses rxc value ops
        | c => phpIdentical value c
      ok && phpMatch rxc doc rest

/-- State of a collection's backing file: absent, present but
unreadable (`file_get_contents` returns false), or readable bytes whose
JSON decoding is `none` (not valid JSON) or `some v`. -/
inductive FileState where
  | missing
  | unreadable
  | contents (decoded : Option PhpVal)

/-- Result of `JsonDB::readCollection` on a file state: every failure
mode and every non-array decoding collapses to the empty array. -/
def decodeArr : FileState → PhpArr
  | .missing => []
  | .unreadable => []
  | .contents none => []
  | .contents (some (.arr l)) => l
  | .contents (some _) => []

/-- Documents of a collection file (values of the decoded array). -/
def docsOf (fs : FileState) : List PhpVal := (decodeArr fs).map Prod.snd

/-- Sanitisation in `JsonDB::getFilePath`:
`preg_replace('/[^a-z0-9_]/i', '', $collection)`. -/
def sanitizeName (s : String) : String :=
  String.mk (s.toList.filter (fun c => c.isAlphanum || c = '_'))

/-- PHP `empty($string)`: true on "" and on "0". -/
def phpEmptyStr (s : String) : Bool := s == "" || s == "0"

/-- `JsonDB::getFilePath`: sanitise, reject an empty sanitised name,
map to `<name>.json`. -/
def getFilePath (collection : String) : Except String String :=
  let safeName := sanitizeName collection
  if phpEmptyStr safeName then .error "Invalid collection name"
  else .ok (safeName ++ ".json")

/-- `JsonDB::readCollection` over a store mapping file paths to file
states: resolve the path (which can fail on an invalid name), then
decode softly. -/
def readCollection (store : String → FileState) (collection : String) :
    Except String PhpArr :=
  match getFilePath collection with
  | .error e => .error e
  | .ok p => .ok (decodeArr (store p))

/-- PHP `isset($arr[$name])`: the key is present with a non-null value. -/
def phpIsset (l : PhpArr) (name : String) : Bool :=
  match assocFind l (.s name) with
  | some v => !phpIdentical v .null
  | none => false

/-- PHP array assignment `$arr[$k] = $v`: replace in place when the key
exists, append otherwise. -/
def arrSet (l : PhpArr) (k : PhpKey) (v : PhpVal) : PhpArr :=
  if l.any (fun kv => phpKeyBEq kv.1 k) then
    l.map (fun kv => if phpKeyBEq kv.1 k then (kv.1, v) else kv)
  else l ++ [(k, v)]

/-- PHP `unset($arr[$k])`. -/
def arrUnset (l : PhpArr) (k : PhpKey) : PhpArr :=
  l.filter (fun kv => !phpKeyBEq kv.1 k)

/-- Next integer key used by `$data[] = ...`. -/
def nextKey (l : PhpArr) : PhpKey :=
  .i (List.foldl
    (fun acc kv =>
      match kv.1 with
      | PhpKey.i n => if acc < n + 1 then n + 1 else acc
      | PhpKey.s _ => acc)
    0 l)

/-- Renumbering performed by rebuilding `$newData[] = $doc` in
`JsonDB::delete`: values keep their order under fresh keys n, n+1, ... -/
def reindexFrom (n : Nat) : List PhpVal → PhpArr
  | [] => []
  | d :: t => (PhpKey.i (Int.ofNat n), d) :: reindexFrom (n + 1) t

/-- Renumbering from key 0. -/
def reindex (l : List PhpVal) : PhpArr := reindexFrom 0 l

/-- `JsonDB::insert` acting on the collection's file state (the
generated id is `uniqid('doc_', true)`, modelled as "doc_" ++ g with g
the entropy): read, assign `_id` when `isset` fails (absent or null),
append, write back, return the stored document. -/
def phpInsert (fs : FileState) (doc : PhpArr) (g : String) : FileState × PhpArr :=
  let data := decodeArr fs
  let stored := if phpIsset doc "_id" then doc
                else arrSet doc (.s "_id") (.s ("doc_" ++ g))
  let data2 := data ++ [(nextKey data, .arr stored)]
  (FileState.contents (some (.arr data2)), stored)

/-- `JsonDB::find` on a file state: empty query returns everything,
otherwise filter by `match`. -/
def phpFind (rxc : RxOracle) (fs : FileState) (query : PhpArr) : List PhpVal :=
  let data := decodeArr fs
  if query.isEmpty then data.map Prod.snd
  else (data.map Prod.snd).filter (fun d => phpMatch rxc d query)

/-- Application of `$data[$idx][$k] = $v` when the element may not be an
array: null auto-vivifies to an array, other scalars are left unchanged
(PHP warns and skips). -/
def phpSetField (d : PhpVal) (k : PhpKey) (v : PhpVal) : PhpVal :=
  match d with
  | .arr l => .arr (arrSet l k v)
  | .null => .arr [(k, v)]
  | other => other

/-- Application of `unset($data[$idx][$k])`. -/
def phpUnsetField (d : PhpVal) (k : PhpKey) : PhpVal :=
  match d with
  | .arr l => .arr (arrUnset l k)
  | other => other

/-- Update specification application in `JsonDB::update`: `$set`
assigns each named field, `$unset` removes each named key; either key is
consulted with `isset` and iterated only when it holds an array; unknown
top-level keys are ignored. -/
def phpApplyUpdate (d : PhpVal) (upd : PhpArr) : PhpVal :=
  let d1 :=
    match assocFind upd (.s "$set") with
    | some (.arr l) => List.foldl (fun acc kv => phpSetField acc kv.1 kv.2) d l
    | _ => d
  match assocFind upd (.s "$unset") with
  | some (.arr l) => List.foldl (fun acc kv => phpUnsetField acc kv.1) d1 l
  | _ => d1

/-- `JsonDB::update` on a file state: apply the update to every
matching document, count matches, and write back only when the count is
positive. -/
def phpUpdate (rxc : RxOracle) (fs : FileState) (query upd : PhpArr) :
    FileState × Nat :=
  let data := decodeArr fs
  let data2 := data.map (fun kv =>
    if phpMatch rxc kv.2 query then (kv.1, phpApplyUpdate kv.2 upd) else kv)
  let modifiedCount := (data.filter (fun kv => phpMatch rxc kv.2 query)).length
  if modifiedCount > 0 then (FileState.contents (some (.arr data2)), modifiedCount)
  else (fs, modifiedCount)

/-- `JsonDB::delete` on a file state: keep the non-matching documents
(re-keyed 0..), count removed as before minus after, and write back only
when the count is positive. -/
def phpDelete (rxc : RxOracle) (fs : FileState) (query : PhpArr) :
    FileState × Nat :=
  let data := decodeArr fs
  let kept := (data.map Prod.snd).filter (fun d => !phpMatch rxc d query)
  let deletedCount := data.length - kept.length
  if deletedCount > 0 then (FileState.contents (some (.arr (reindex kept))), deletedCount)
  else (fs, deletedCount)

/-- JavaScript value as handled by the simulator (numbers restricted to
the integer subset the claims exercise). -/
inductive JsVal where
  | undefined
  | null
  | b (v : Bool)
  | num (n : Int)
  | s (v : String)
  | arr (l : List JsVal)
  | obj (fields : List (String × JsVal))
deriving Repr

abbrev TsDoc := List (String × JsVal)

mutual

/-- JavaScript `String(v)`. -/
def jsToString : JsVal → String
  | .undefined => "undefined"
  | .null => "null"
  | .b v => if v then "true" else "false"
  | .num n => toString n
  | .s v => v
  | .arr l => jsJoinElems l
  | .obj _ => "[object Object]"

/-- `Array.prototype.toString`: elements joined with ",", null and
undefined elements rendered as "". -/
def jsJoinElems : List JsVal → String
  | [] => ""
  | x :: rest =>
      let hd :=
        match x with
        | JsVal.undefined => ""
        | JsVal.null => ""
        | v => jsToString v
      match rest with
      | [] => hd
      | _ :: _ => hd ++ "," ++ jsJoinElems rest

end

/-- JavaScript strict equality `===` (SameValueZero coincides on the
modelled values).  Arrays and objects compare by reference; a query
criteria and a stored document value never alias in the simulator, so
the comparison is false. -/
def jsStrictEq : JsVal → JsVal → Bool
  | .undefined, .undefined => true
  | .null, .null => true
  | .b x, .b y => x == y
  | .num x, .num y => x == y
  | .s x, .s y => x == y
  | _, _ => false

/-- ToNumber on a trimmed string, integer subset: "" is 0, optionally
signed digits parse, anything else is NaN (`none`). -/
def jsParseNumber (s : String) : Option Int :=
  let l := ((s.toList.dropWhile wsChar).reverse.dropWhile wsChar).reverse
  match l with
  | [] => some 0
  | '+' :: rest => (parseDigits rest).map Int.ofNat
  | '-' :: rest => (parseDigits rest).map (fun n => -(Int.ofNat n))
  | rest => (parseDigits rest).map Int.ofNat

/-- ToPrimitive with number hint as used by relational comparison:
arrays stringify by join, objects become "[object Object]", primitives
stay. -/
def jsPrim : JsVal → JsVal
  | .arr l => .s (jsJoinElems l)
  | .obj _ => .s "[object Object]"
  | v => v

/-- ToNumber of a primitive (`none` is NaN). -/
def jsToNumOpt : JsVal → Option Int
  | .undefined => none
  | .null => some 0
  | .b v => some (if v then 1 else 0)
  | .num n => some n
  | .s v => jsParseNumber v
  | .arr l => jsParseNumber (jsJoinElems l)
  | .obj _ => none

/-- ECMA abstract relational comparison packaged as a three-way result:
both primitives strings compares lexicographically, otherwise ToNumber
on both with NaN rendering the comparison undefined (`none`, every
relational operator false). -/
def jsRelCompare (x y : JsVal) : Option Ordering :=
  match jsPrim x, jsPrim y with
  | .s a, .s c => some (strCmp a c)
  | px, py =>
      match jsToNumOpt px, jsToNumOpt py with
      | some a, some c => some (compare a c)
      | _, _ => none

/-- JavaScript `<=`. -/
def jsLe (x y : JsVal) : Bool :=
  match jsRelCompare x y with
  | some .lt => true
  | some .eq => true
  | _ => false

/-- JavaScript `>=`. -/
def jsGe (x y : JsVal) : Bool :=
  match jsRelCompare x y with
  | some .gt => true
  | some .eq => true
  | _ => false

/-- Characters with a special meaning in a JavaScript RegExp pattern. -/
def jsMeta (c : Char) : Bool :=
  c = '^' || c = '$' || c = '\\' || c = '.' || c = '*' || c = '+' ||
  c = '?' || c = '(' || c = ')' || c = '[' || c = ']' || c = '{' ||
  c = '}' || c = '|'

/-- Patterns consisting only of literal characters. -/
def isLiteralPat (p : String) : Bool := p.toList.all (fun c => !jsMeta c)

mutual

/-- Scan for clearly unbalanced parentheses (depth goes negative, ends
positive, or a trailing lone backslash), a guaranteed SyntaxError from
the RegExp constructor. -/
def parenScan : List Char → Nat → Bool
  | [], d => d != 0
  | c :: rest, d =>
      if c = '\\' then parenSkip rest d
      else if c = '(' then parenScan rest (d + 1)
      else if c = ')' then (if d = 0 then true else parenScan rest (d - 1))
      else parenScan rest d

/-- Skip the character escaped by a backslash; a trailing lone
backslash is itself a SyntaxError. -/
def parenSkip : List Char → Nat → Bool
  | [], _ => true
  | _ :: r2, d => parenScan r2 d

end

/-- Detect patterns that certainly fail to compile; character classes
suspend the scan (deferred to the oracle). -/
def parenProblem (p : String) : Bool :=
  if p.toList.contains '[' then false else parenScan p.toList 0

/-- Map characters to lower case (ASCII folding; the simulator's "i"
flag restricted to the code points the claims use). -/
def lowerList (l : List Char) : List Char := l.map Char.toLower

/-- Prefix test on character lists. -/
def startsWithCh : List Char → List Char → Bool
  | [], _ => true
  | _ :: _, [] => false
  | a :: as, c :: cs => a == c && startsWithCh as cs

/-- Substring test on character lists. -/
def isInfixCh (needle hay : List Char) : Bool :=
  startsWithCh needle hay ||
    match hay with
    | [] => false
    | _ :: t => isInfixCh needle t

/-- Case-insensitive substring search: the behaviour of
`new RegExp(p, 'i').test(s)` for a literal pattern p. -/
def ciContainsStr (p s : String) : Bool :=
  isInfixCh (lowerList p.toList) (lowerList s.toList)

/-- Model of `new RegExp(p, 'i')`: a clearly unbalanced pattern fails to
compile, a literal pattern compiles to case-insensitive substring
search, anything else is decided by the host engine oracle. -/
def jsRegexCompile (rxc : RxOracle) (p : String) : Option (String → Bool) :=
  if parenProblem p then none
  else if isLiteralPat p then some (fun s => ciContainsStr p s)
  else rxc p

/-- JavaScript property read `doc[key]`: `undefined` when absent. -/
def tsLookup (doc : TsDoc) (k : String) : JsVal :=
  match doc.find? (fun kv => kv.1 == k) with
  | some kv => kv.2
  | none => .undefined

/-- One operator clause of `DbSimulator.match` (the `switch`): `.ok ok`
when evaluation completes with the clause passing or failing, `.error`
when the RegExp constructor throws on a malformed pattern. -/
def tsClause (rxc : RxOracle) (val : JsVal) (op : String) (expected : JsVal) :
    Except String Bool :=
  match op with
  | "$eq" => .ok (jsStrictEq val expected)
  | "$ne" => .ok (!jsStrictEq val expected)
  | "$gt" => .ok (!jsLe val expected)
  | "$lt" => .ok (!jsGe val expected)
  | "$regex" =>
      match jsRegexCompile rxc (jsToString expected) with
      | some f => .ok (f (jsToString val))
      | none => .error "SyntaxError"
  | "$in" =>
      .ok (match expected with
           | .arr l => l.any (fun e => jsStrictEq e val)
           | _ => false)
  | _ => .ok true

/-- Inner loop of `DbSimulator.match` over the operator object, in
order, stopping at the first failing clause or thrown error. -/
def tsClauses (rxc : RxOracle) (val : JsVal) : List (String × JsVal) →
    Except String Bool
  | [] => .ok true
  | (op, expected) :: rest =>
      match tsClause rxc val op expected with
      | .error e => .error e
      | .ok false => .ok false
      | .ok true => tsClauses rxc val rest

/-- Criteria shape test of the simulator:
`typeof criteria === 'object' && criteria !== null && !Array.isArray(criteria)`. -/
def tsIsOpObj : JsVal → Bool
  | .obj _ => true
  | _ => false

/-- `DbSimulator.match(doc, query)`: conjunction over the query fields;
a non-array object criteria is an operator mapping, any other criteria
demands strict equality with the field value. -/
def tsMatch (rxc : RxOracle) (doc : TsDoc) : List (String × JsVal) →
    Except String Bool
  | [] => .ok true
  | (k, criteria) :: rest =>
      let val := tsLookup doc k
      let r :=
        match criteria with
        | .obj ops => tsClauses rxc val ops
        | c => .ok (jsStrictEq val c)
      match r with
      | .error e => .error e
      | .ok false => .ok false
      | .ok true => tsMatch rxc doc rest

/-- JavaScript object literal `{...doc, _id: v}`: spread then assign,
keeping the original key position when the key already exists. -/
def jsSpreadSet (l : TsDoc) (k : String) (v : JsVal) : TsDoc :=
  if l.any (fun kv => kv.1 == k) then
    l.map (fun kv => if kv.1 == k then (kv.1, v) else kv)
  else l ++ [(k, v)]

/-- `DbSimulator.insert` on a collection's document list: the new
document is the input spread with `_id` unconditionally set to a fresh
generated id (g the entropy of `Math.random().toString(36)`), pushed at
the end; the new document is returned. -/
def dbSimInsert (docs : List TsDoc) (doc : TsDoc) (g : String) :
    List TsDoc × TsDoc :=
  let nd := jsSpreadSet doc "_id" (.s ("doc_" ++ g))
  (docs ++ [nd], nd)

/-- The filter of `DbSimulator.delete`
(`documents.filter(doc => !this.match(doc, query))`), with an exception
from `match` aborting the whole call. -/
def tsFilterNot (rxc : RxOracle) (query : List (String × JsVal)) :
    List TsDoc → Except String (List TsDoc)
  | [] => .ok []
  | d :: t =>
      match tsMatch rxc d query with
      | .error e => .error e
      | .ok true => tsFilterNot rxc query t
      | .ok false =>
          match tsFilterNot rxc query t with
          | .ok r => .ok (d :: r)
          | .error e => .error e

/-- `DbSimulator.delete` on a collection's document list: keep the
non-matching documents and return them with the count before minus the
count after. -/
def simDelete (rxc : RxOracle) (docs : List TsDoc)
    (query : List (String × JsVal)) : Except String (List TsDoc × Nat) :=
  match tsFilterNot rxc query docs with
  | .ok kept => .ok (kept, docs.length - kept.length)
  | .error e => .error e

/-- Oracle refusing every pattern outside the embedded fragment. -/
def rxcNone : RxOracle := fun _ => none

/-- Oracle matching everything, the most favourable engine for a
pattern that reaches it. -/
def rxcTrue : RxOracle := fun _ => some (fun _ => true)

/-- Spec-side characterisation of the operands for which PHP considers
null strictly less than the operand (so that a null field passes a
`$lt` clause): truthy bools, non-zero ints, non-empty strings, non-empty
arrays. -/
def nullLtOperand : PhpVal → Bool
  | .null => false
  | .b v => v
  | .i n => n != 0
  | .s v => v != ""
  | .arr l => !l.isEmpty

/-- Spec-side enumeration of the soft-fail file conditions of the
claim: missing, unreadable, or not decoding to a JSON array. -/
def isSoftFail : FileState → Bool
  | .missing => true
  | .unreadable => true
  | .contents none => true
  | .contents (some (.arr _)) => false
  | .contents (some _) => true

/-- Scalar (non-array) PHP values. -/
def phpIsScalar : PhpVal → Bool
  | .arr _ => false
  | _ => true

/-- Scalar (non-array, non-object) JavaScript values. -/
def jsIsScalar : JsVal → Bool
  | .arr _ => false
  | .obj _ => false
  | _ => true

/-- JavaScript `Array.isArray`. -/
def jsIsArr : JsVal → Bool
  | .arr _ => true
  | _ => false

/-- The string `_id` of a stored document, when the document is an
array holding a string under `_id`. -/
def idStrOf : PhpVal → Option String
  | .arr l =>
      match assocFind l (.s "_id") with
      | some (.s v) => some v
      | _ => none
  | _ => none

/-- One document carries a usable id: a non-empty string under `_id`. -/
def idNonEmpty (d : PhpVal) : Bool :=
  match idStrOf d with
  | some v => v != ""
  | none => false

/-- Invariant of the claim: every stored document carries a non-empty
`_id`, and the ids are pairwise distinct. -/
def idsOk (docs : List PhpVal) : Prop :=
  docs.all idNonEmpty = true ∧ (docs.filterMap idStrOf).Nodup

/-- Evaluation of the simulator's match completed with a non-match. -/
def isOkFalse : Except String Bool → Bool
  | .ok false => true
  | _ => false

/-! Helper lemmas shared by the claim theorems. -/

theorem reindexFrom_map_snd (l : List PhpVal) : ∀ n, (reindexFrom n l).map Prod.snd = l := by
  induction l with
  | nil => intro n; rfl
  | cons d t ih => intro n; simp [reindexFrom, ih]

theorem reindex_map_snd (l : List PhpVal) : (reindex l).map Prod.snd = l :=
  reindexFrom_map_snd l 0

theorem filter_eq_self_of_length {α} (p : α → Bool) :
    ∀ l : List α, (l.filter p).length = l.length → l.filter p = l := by
  intro l
  induction l with
  | nil => intro _; rfl
  | cons a t ih =>
      intro h
      by_cases hp : p a
      · simp only [List.filter_cons, hp, if_true, List.length_cons] at h ⊢
        exact congrArg (a :: ·) (ih (Nat.succ_injective h))
      · simp only [List.filter_cons, hp, if_false, Bool.false_eq_true, List.length_cons] at h
        have hle := List.length_filter_le p t
        omega

theorem softfail_decode (fs : FileState) (h : isSoftFail fs = true) : decodeArr fs = [] := by
  cases fs with
  | missing => rfl
  | unreadable => rfl
  | contents o =>
      cases o with
      | none => rfl
      | some v => cases v <;> simp_all [isSoftFail, decodeArr]

theorem phpKeyBEq_refl (k : PhpKey) : phpKeyBEq k k = true := by
  cases k <;> simp [phpKeyBEq]

theorem assocFind_replace (k : PhpKey) (v : PhpVal) :
    ∀ t : PhpArr, t.any (fun kv => phpKeyBEq kv.1 k) = true →
      assocFind (t.map (fun kv => if phpKeyBEq kv.1 k then (kv.1, v) else kv)) k = some v := by
  intro t
  induction t with
  | nil => intro h; simp at h
  | cons kv t ih =>
      intro h
      by_cases hk : phpKeyBEq kv.1 k = true
      · rw [List.map_cons, if_pos hk]
        simp [assocFind, hk]
      · rw [List.map_cons, if_neg hk]
        have ht : t.any (fun kv => phpKeyBEq kv.1 k) = true := by
          simp only [List.any_cons] at h
          rcases Bool.or_eq_true_iff.mp h with h1 | h1
          · exact absurd h1 hk
          · exact h1
        simp only [assocFind, hk, if_false]
        exact ih ht

theorem assocFind_append_hit (k : PhpKey) (v : PhpVal) :
    ∀ l : PhpArr, l.any (fun kv => phpKeyBEq kv.1 k) = false →
      assocFind (l ++ [(k, v)]) k = some v := by
  intro l
  induction l with
  | nil => intro _; simp [assocFind, phpKeyBEq_refl]
  | cons kv t ih =>
      intro h
      simp only [List.any_cons, Bool.or_eq_false_iff] at h
      simp only [List.cons_append, assocFind, h.1, if_false]
      exact ih h.2

theorem assocFind_arrSet (l : PhpArr) (k : PhpKey) (v : PhpVal) :
    assocFind (arrSet l k v) k = some v := by
  unfold arrSet
  cases h : l.any (fun kv => phpKeyBEq kv.1 k) with
  | true => simp only [if_true]; exact assocFind_replace k v l h
  | false => simp only [Bool.false_eq_true, if_false]; exact assocFind_append_hit k v l h

theorem filter_unset_replace (k : PhpKey) (v : PhpVal) :
    ∀ t : PhpArr,
      List.filter (fun kv => !phpKeyBEq kv.1 k)
        (t.map (fun kv => if phpKeyBEq kv.1 k then (kv.1, v) else kv)) =
      List.filter (fun kv => !phpKeyBEq kv.1 k) t := by
  intro t
  induction t with
  | nil => rfl
  | cons kv t ih =>
      by_cases hk : phpKeyBEq kv.1 k = true
      · rw [List.map_cons, if_pos hk]
        simp [List.filter_cons, hk, ih]
      · rw [List.map_cons, if_neg hk]
        simp only [Bool.not_eq_true] at hk
        simp [List.filter_cons, hk, ih]

theorem arrUnset_arrSet (l : PhpArr) (k : PhpKey) (v : PhpVal) :
    arrUnset (arrSet l k v) k = arrUnset l k := by
  unfold arrSet arrUnset
  cases h : l.any (fun kv => phpKeyBEq kv.1 k) with
  | true => simp only [if_true]; exact filter_unset_replace k v l
  | false =>
      simp only [Bool.false_eq_true, if_false]
      rw [List.filter_append]
      simp [List.filter_cons, phpKeyBEq_refl]

set_option maxRecDepth 4000 in
theorem phpInsert_docsOf (fs : FileState) (doc : PhpArr) (g : String) :
    docsOf (phpInsert fs doc g).1 = docsOf fs ++ [.arr (phpInsert fs doc g).2] := by
  unfold phpInsert
  cases h : phpIsset doc "_id" <;> simp [h, docsOf, decodeArr]

theorem phpInsert_ret_isset (fs : FileState) (doc : PhpArr) (g : String)
    (h : phpIsset doc "_id" = true) : (phpInsert fs doc g).2 = doc := by
  simp [phpInsert, h]

theorem phpInsert_ret_gen (fs : FileState) (doc : PhpArr) (g : String)
    (h : phpIsset doc "_id" = false) :
    (phpInsert fs doc g).2 = arrSet doc (.s "_id") (.s ("doc_" ++ g)) := by
  simp [phpInsert, h]

theorem phpIsset_of_strVal (l : PhpArr) (name v : String)
    (h : assocFind l (.s name) = some (.s v)) : phpIsset l name = true := by
  simp [phpIsset, h, phpIdentical]

theorem doc_prefix_ne_empty (g : String) : ("doc_" ++ g) ≠ "" := by
  intro h
  have h2 := congrArg String.length h
  rw [String.length_append] at h2
  have h3 : String.length "doc_" = 4 := by decide
  have h4 : String.length "" = 0 := by decide
  rw [h3, h4] at h2
  omega

theorem phpLe_null_any (v : PhpVal) : phpLe .null v = true := by
  cases v with
  | s t =>
      simp only [phpLe, phpLooseCompare, strCmp]
      have : String.toList "" = [] := rfl
      rw [this]
      cases t.toList <;> simp [listCmpCh]
  | null => simp [phpLe, phpLooseCompare, phpToBool, boolOrd]
  | b x => cases x <;> simp [phpLe, phpLooseCompare, phpToBool, boolOrd]
  | i n =>
      simp only [phpLe, phpLooseCompare, phpToBool]
      cases hn : (n != 0) <;> simp [boolOrd]
  | arr l =>
      simp only [phpLe, phpLooseCompare, phpToBool]
      cases hl : l.isEmpty <;> simp [boolOrd]

theorem string_toList_nil (t : String) (h : t.toList = []) : t = "" := by
  cases t with
  | mk data => cases data with
    | nil => rfl
    | cons c cs => simp [String.toList, String.data] at h

theorem phpGe_null_eq (v : PhpVal) : phpGe .null v = !nullLtOperand v := by
  cases v with
  | s t =>
      simp only [phpGe, phpLooseCompare, strCmp, nullLtOperand]
      have he : String.toList "" = [] := rfl
      rw [he]
      cases ht : t.toList with
      | nil =>
          have : t = "" := string_toList_nil t ht
          simp [this, listCmpCh]
      | cons c cs =>
          have hne : t ≠ "" := by
            intro hc
            rw [hc] at ht
            simp at ht
          simp [listCmpCh, hne]
  | null => simp [phpGe, phpLooseCompare, phpToBool, boolOrd, nullLtOperand]
  | b x => cases x <;> simp [phpGe, phpLooseCompare, phpToBool, boolOrd, nullLtOperand]
  | i n =>
      simp only [phpGe, phpLooseCompare, phpToBool, nullLtOperand]
      cases hn : (n != 0) <;> simp [boolOrd]
  | arr l =>
      simp only [phpGe, phpLooseCompare, phpToBool, nullLtOperand]
      cases hl : l.isEmpty <;> simp [boolOrd]

theorem jsLe_undef (v : JsVal) : jsLe .undefined v = false := by
  cases hp : jsPrim v <;>
    simp [jsLe, jsRelCompare, hp, jsToNumOpt, jsPrim]

theorem jsGe_undef (v : JsVal) : jsGe .undefined v = false := by
  cases hp : jsPrim v <;>
    simp [jsGe, jsRelCompare, hp, jsToNumOpt, jsPrim]

theorem kq_gt_eq : keyEqOpStr (.s "$gt") "$eq" = false := by decide

theorem kq_gt_ne : keyEqOpStr (.s "$gt") "$ne" = false := by decide

theorem kq_gt_gt : keyEqOpStr (.s "$gt") "$gt" = true := by decide

theorem kq_lt_eq : keyEqOpStr (.s "$lt") "$eq" = false := by decide

theorem kq_lt_ne : keyEqOpStr (.s "$lt") "$ne" = false := by decide

theorem kq_lt_gt : keyEqOpStr (.s "$lt") "$gt" = false := by decide

theorem kq_lt_lt : keyEqOpStr (.s "$lt") "$lt" = true := by decide

theorem kq_rx_eq : keyEqOpStr (.s "$regex") "$eq" = false := by decide

theorem kq_rx_ne : keyEqOpStr (.s "$regex") "$ne" = false := by decide

theorem kq_rx_gt : keyEqOpStr (.s "$regex") "$gt" = false := by decide

theorem kq_rx_lt : keyEqOpStr (.s "$regex") "$lt" = false := by decide

theorem kq_rx_rx : keyEqOpStr (.s "$regex") "$regex" = true := by decide

theorem kq_in_eq : keyEqOpStr (.s "$in") "$eq" = false := by decide

theorem kq_in_ne : keyEqOpStr (.s "$in") "$ne" = false := by decide

theorem kq_in_gt : keyEqOpStr (.s "$in") "$gt" = false := by decide

theorem kq_in_lt : keyEqOpStr (.s "$in") "$lt" = false := by decide

theorem kq_in_rx : keyEqOpStr (.s "$in") "$regex" = false := by decide

theorem kq_in_in : keyEqOpStr (.s "$in") "$in" = true := by decide

theorem kq_zero_eq : keyEqOpStr (.i 0) "$eq" = true := by decide

theorem parenScan_no_special (d : Nat) :
    ∀ l : List Char, (∀ c ∈ l, c ≠ '\\' ∧ c ≠ '(' ∧ c ≠ ')') →
      parenScan l d = (d != 0) := by
  intro l
  induction l with
  | nil => intro _; rfl
  | cons c t ih =>
      intro h
      have hc := h c (by simp)
      have ht : ∀ c ∈ t, c ≠ '\\' ∧ c ≠ '(' ∧ c ≠ ')' := fun x hx => h x (by simp [hx])
      simp only [parenScan]
      rw [if_neg hc.1, if_neg hc.2.1, if_neg hc.2.2]
      exact ih ht

theorem literal_no_paren_problem (p : String) (h : isLiteralPat p = true) :
    parenProblem p = false := by
  unfold parenProblem
  have hall : ∀ c ∈ p.toList, !jsMeta c := by
    intro c hc
    exact List.all_eq_true.mp h c hc
  have hnb : p.toList.contains '[' = false := by
    have hmem : ¬ ('[' ∈ p.toList) := by
      intro hm
      have hmeta := hall '[' hm
      exact absurd hmeta (by decide)
    simpa using hmem
  rw [hnb]
  simp only [Bool.false_eq_true, if_false]
  rw [parenScan_no_special 0 p.toList]
  · rfl
  · intro c hc
    have := hall c hc
    simp only [jsMeta, Bool.not_eq_true, Bool.or_eq_false_iff] at this
    refine ⟨?_, ?_, ?_⟩ <;>
      · intro hcc
        rw [hcc] at this
        revert this
        decide

theorem tsLookup_replace (k : String) (v : JsVal) :
    ∀ t : TsDoc, t.any (fun kv => kv.1 == k) = true →
      tsLookup (t.map (fun kv => if kv.1 == k then (kv.1, v) else kv)) k = v := by
  intro t
  induction t with
  | nil => intro h; simp at h
  | cons kv t ih =>
      intro h
      by_cases hk : (kv.1 == k) = true
      · rw [List.map_cons, if_pos hk]
        simp [tsLookup, List.find?, hk]
      · rw [List.map_cons, if_neg hk]
        have ht : t.any (fun kv => kv.1 == k) = true := by
          simp only [List.any_cons] at h
          rcases Bool.or_eq_true_iff.mp h with h1 | h1
          · exact absurd h1 hk
          · exact h1
        simp only [tsLookup, List.find?, hk]
        exact ih ht

theorem tsLookup_append_hit (k : String) (v : JsVal) :
    ∀ l : TsDoc, l.any (fun kv => kv.1 == k) = false →
      tsLookup (l ++ [(k, v)]) k = v := by
  intro l
  induction l with
  | nil => intro _; simp [tsLookup, List.find?]
  | cons kv t ih =>
      intro h
      simp only [List.any_cons, Bool.or_eq_false_iff] at h
      simp only [List.cons_append, tsLookup, List.find?, h.1]
      exact ih h.2

theorem tsLookup_spreadSet (l : TsDoc) (k : String) (v : JsVal) :
    tsLookup (jsSpreadSet l k v) k = v := by
  unfold jsSpreadSet
  cases h : l.any (fun kv => kv.1 == k) with
  | true => simp only [if_true]; exact tsLookup_replace k v l h
  | false => simp only [Bool.false_eq_true, if_false]; exact tsLookup_append_hit k v l h

theorem tsMatch_empty (rxc : RxOracle) (d : TsDoc) : tsMatch rxc d [] = .ok true := rfl

theorem tsFilterNot_empty_query (rxc : RxOracle) :
    ∀ docs : List TsDoc, tsFilterNot rxc [] docs = .ok [] := by
  intro docs
  induction docs with
  | nil => rfl
  | cons d t ih => simp [tsFilterNot, tsMatch_empty, ih]

theorem tsFilterNot_ok_filter (rxc : RxOracle) (q : List (String × JsVal)) :
    ∀ (docs : List TsDoc) (kept : List TsDoc),
      tsFilterNot rxc q docs = .ok kept →
      kept = docs.filter (fun d => isOkFalse (tsMatch rxc d q)) := by
  intro docs
  induction docs with
  | nil =>
      intro kept h
      simp only [tsFilterNot] at h
      cases h
      rfl
  | cons d t ih =>
      intro kept h
      simp only [tsFilterNot] at h
      cases hm : tsMatch rxc d q with
      | error e => rw [hm] at h; cases h
      | ok bb =>
          rw [hm] at h
          cases bb with
          | true =>
              rw [List.filter_cons, hm]
              have hcond : isOkFalse (Except.ok true) = false := rfl
              rw [hcond]
              simp only [Bool.false_eq_true, if_false]
              exact ih kept h
          | false =>
              cases hft : tsFilterNot rxc q t with
              | error e => rw [hft] at h; cases h
              | ok r =>
                  rw [hft] at h
                  cases h
                  rw [List.filter_cons, hm]
                  have hcond : isOkFalse (Except.ok false) = true := rfl
                  rw [hcond, if_pos rfl]
                  rw [ih r hft]

theorem phpDelete_spec (rxc : RxOracle) (fs : FileState) (q : PhpArr) :
    docsOf (phpDelete rxc fs q).1 = (docsOf fs).filter (fun d => !phpMatch rxc d q) ∧
    (phpDelete rxc fs q).2 = (docsOf fs).length - (docsOf (phpDelete rxc fs q).1).length := by
  unfold phpDelete
  by_cases hp : (decodeArr fs).length -
      (((decodeArr fs).map Prod.snd).filter (fun d => !phpMatch rxc d q)).length > 0
  · rw [if_pos hp]
    refine ⟨?_, ?_⟩
    · simp [docsOf, decodeArr, reindex_map_snd]
    · simp [docsOf, decodeArr, reindex_map_snd]
  · rw [if_neg hp]
    have hle := List.length_filter_le (fun d => !phpMatch rxc d q) ((decodeArr fs).map Prod.snd)
    rw [List.length_map] at hle
    have hlen : (((decodeArr fs).map Prod.snd).filter (fun d => !phpMatch rxc d q)).length =
        ((decodeArr fs).map Prod.snd).length := by
      rw [List.length_map]
      omega
    have hself := filter_eq_self_of_length (fun d => !phpMatch rxc d q)
      ((decodeArr fs).map Prod.snd) hlen
    refine ⟨?_, ?_⟩
    · simp only [docsOf]
      rw [hself]
    · simp only [docsOf]
      rw [List.length_map] at hlen ⊢
      omega

/-! Claim theorems. -/

/-- C8 (amended): for every collection name that PHP does not consider
empty after sanitisation, reading a collection whose backing file is
missing, unreadable, or does not decode to a JSON array yields the empty
document sequence with no error; a name sanitising to an empty (or "0")
string instead raises InvalidName. -/
theorem C8_read_softfail_amended (store : String → FileState) (collection : String)
    (h1 : phpEmptyStr (sanitizeName collection) = false)
    (h2 : isSoftFail (store (sanitizeName collection ++ ".json")) = true) :
    readCollection store collection = .ok [] := by
  simp only [readCollection, getFilePath, h1, Bool.false_eq_true, if_false]
  rw [softfail_decode _ h2]

/-- C8 counterexample: the claim quantifies over every collection name,
but a name whose sanitised form is empty makes `readCollection` raise
"Invalid collection name" even though the backing file is missing. -/
theorem C8_cex_invalid_name :
    readCollection (fun _ => FileState.missing) "!!!" = .error "Invalid collection name" := rfl

/-- C8 witness. -/
theorem C8_read_softfail_witness :
    readCollection (fun _ => FileState.missing) "users" = .ok [] :=
  C8_read_softfail_amended (fun _ => FileState.missing) "users" (by decide) (by decide)

/-- C10: when no document matches the predicate, update and delete
return count 0 and leave the file state untouched (the write-back is
skipped entirely). -/
theorem C10_no_write_on_zero_matches (rxc : RxOracle) (fs : FileState) (q u : PhpArr)
    (h : (docsOf fs).all (fun d => !phpMatch rxc d q) = true) :
    phpUpdate rxc fs q u = (fs, 0) ∧ phpDelete rxc fs q = (fs, 0) := by
  have hnot : ∀ d ∈ docsOf fs, phpMatch rxc d q = false := by
    intro d hd
    have hb := List.all_eq_true.mp h d hd
    simpa using hb
  constructor
  · have hfil : (decodeArr fs).filter (fun kv => phpMatch rxc kv.2 q) = [] := by
      rw [List.filter_eq_nil_iff]
      intro kv hkv
      have hmem : kv.2 ∈ docsOf fs := List.mem_map_of_mem Prod.snd hkv
      simp [hnot kv.2 hmem]
    simp [phpUpdate, hfil]
  · have hkeep : ((decodeArr fs).map Prod.snd).filter (fun d => !phpMatch rxc d q) =
        (decodeArr fs).map Prod.snd := by
      rw [List.filter_eq_self]
      intro d hd
      simp [hnot d hd]
    simp [phpDelete, hkeep]

/-- C10 witness. -/
theorem C10_no_write_witness :
    phpUpdate rxcNone (FileState.contents (some (.arr [(.i 0, .arr [(.s "age", .i 30)])])))
      [(.s "age", .i 25)] [(.s "$set", .arr [(.s "age", .i 31)])] =
      (FileState.contents (some (.arr [(.i 0, .arr [(.s "age", .i 30)])])), 0) ∧
    phpDelete rxcNone (FileState.contents (some (.arr [(.i 0, .arr [(.s "age", .i 30)])])))
      [(.s "age", .i 25)] =
      (FileState.contents (some (.arr [(.i 0, .arr [(.s "age", .i 30)])])), 0) :=
  C10_no_write_on_zero_matches rxcNone
    (FileState.contents (some (.arr [(.i 0, .arr [(.s "age", .i 30)])])))
    [(.s "age", .i 25)] [(.s "$set", .arr [(.s "age", .i 31)])] (by decide)

/-- C7: delete keeps exactly the non-matching documents in their
original relative order and returns the count before minus the count
after; with the empty predicate it removes everything and returns the
prior size, and a subsequent find with the empty predicate returns the
empty sequence.  The simulator's delete does the same whenever its
match evaluation completes (`tsFilterNot ... = .ok kept`); with the
empty predicate it always completes and empties the collection. -/
theorem C7_delete_contract (rxc rxj : RxOracle) (fs : FileState) (q : PhpArr)
    (docs : List TsDoc) (q2 : List (String × JsVal)) (kept : List TsDoc)
    (hk : tsFilterNot rxj q2 docs = .ok kept) :
    docsOf (phpDelete rxc fs q).1 = (docsOf fs).filter (fun d => !phpMatch rxc d q) ∧
    (phpDelete rxc fs q).2 = (docsOf fs).length - (docsOf (phpDelete rxc fs q).1).length ∧
    docsOf (phpDelete rxc fs ([] : PhpArr)).1 = [] ∧
    (phpDelete rxc fs ([] : PhpArr)).2 = (docsOf fs).length ∧
    phpFind rxc (phpDelete rxc fs ([] : PhpArr)).1 [] = [] ∧
    kept = docs.filter (fun d => isOkFalse (tsMatch rxj d q2)) ∧
    simDelete rxj docs q2 = .ok (kept, docs.length - kept.length) ∧
    simDelete rxj docs [] = .ok ([], docs.length) := by
  obtain ⟨hA, hB⟩ := phpDelete_spec rxc fs q
  obtain ⟨hA0, hB0⟩ := phpDelete_spec rxc fs []
  have hmt : ∀ d : PhpVal, phpMatch rxc d ([] : PhpArr) = true := fun d => rfl
  have hempty : docsOf (phpDelete rxc fs ([] : PhpArr)).1 = [] := by
    rw [hA0]
    rw [List.filter_eq_nil_iff]
    intro d hd
    simp [hmt d]
  refine ⟨hA, hB, hempty, ?_, ?_, tsFilterNot_ok_filter rxj q2 docs kept hk, ?_, ?_⟩
  · rw [hB0, hempty]
    simp
  · simp [phpFind, docsOf] at hempty ⊢
    cases hfs : decodeArr (phpDelete rxc fs ([] : PhpArr)).1 with
    | nil => rfl
    | cons a t =>
        rw [hfs] at hempty
        simp at hempty
  · unfold simDelete
    rw [hk]
  · unfold simDelete
    rw [tsFilterNot_empty_query rxj docs]
    simp

/-- C7 witness. -/
theorem C7_delete_witness :
    docsOf (phpDelete rxcNone (FileState.contents (some (.arr [(.i 0, .arr [(.s "age", .i 30)]), (.i 1, .arr [(.s "age", .i 25)])]))) [(.s "age", .i 25)]).1 =
      (docsOf (FileState.contents (some (.arr [(.i 0, .arr [(.s "age", .i 30)]), (.i 1, .arr [(.s "age", .i 25)])])))).filter
        (fun d => !phpMatch rxcNone d [(.s "age", .i 25)]) ∧
    simDelete rxcNone [[("a", JsVal.num 1)]] [] = .ok ([], 1) := by
  have h := C7_delete_contract rxcNone rxcNone
    (FileState.contents (some (.arr [(.i 0, .arr [(.s "age", .i 30)]), (.i 1, .arr [(.s "age", .i 25)])])))
    [(.s "age", .i 25)] [[("a", JsVal.num 1)]] [("a", JsVal.num 2)] [[("a", JsVal.num 1)]] rfl
  exact ⟨h.1, by simpa using h.2.2.2.2.2.2.2⟩

/-- C2 (amended): in the PHP engine a null or absent field always fails
a `$gt` clause, but a `$lt` clause is decided by PHP's loose comparison
of null with the operand: the document matches exactly when the operand
is truthy in PHP's sense (non-empty string, non-zero number, true,
non-empty array).  In the simulator an absent (undefined) field matches
both `$gt` and `$lt` for every operand, because every relational
comparison with NaN is false.  Evaluation completes normally in both
engines (the functions are total). -/
theorem C2_null_gt_lt_amended (rxc rxj : RxOracle) (doc : PhpVal) (k : PhpKey)
    (v : PhpVal) (tdoc : TsDoc) (k2 : String) (w : JsVal)
    (h1 : phpLookupVal doc k = .null) (h2 : tsLookup tdoc k2 = .undefined) :
    phpMatch rxc doc [(k, .arr [(.s "$gt", v)])] = false ∧
    phpMatch rxc doc [(k, .arr [(.s "$lt", v)])] = nullLtOperand v ∧
    tsMatch rxj tdoc [(k2, .obj [("$gt", w)])] = .ok true ∧
    tsMatch rxj tdoc [(k2, .obj [("$lt", w)])] = .ok true := by
  refine ⟨?_, ?_, ?_, ?_⟩
  · simp [phpMatch, phpClauses, h1, kq_gt_eq, kq_gt_ne, kq_gt_gt, phpLe_null_any]
  · simp [phpMatch, phpClauses, h1, kq_lt_eq, kq_lt_ne, kq_lt_gt, kq_lt_lt, phpGe_null_eq]
  · simp [tsMatch, tsClauses, tsClause, h2, jsLe_undef]
  · simp [tsMatch, tsClauses, tsClause, h2, jsGe_undef]

/-- C2 counterexample: a document without an `age` field matches the
query with clause `$lt` 25 in the PHP engine, although the claim says a
null/absent field fails every `$lt` clause. -/
theorem C2_cex_null_matches_lt :
    phpMatch rxcNone (.arr []) [(.s "age", .arr [(.s "$lt", .i 25)])] = true := by decide

/-- C2 witness. -/
theorem C2_null_gt_lt_witness :
    phpMatch rxcNone (.arr []) [(.s "age", .arr [(.s "$gt", .i 25)])] = false ∧
    phpMatch rxcNone (.arr []) [(.s "age", .arr [(.s "$lt", .i 25)])] = nullLtOperand (.i 25) ∧
    tsMatch rxcNone [] [("age", .obj [("$gt", JsVal.num 25)])] = .ok true ∧
    tsMatch rxcNone [] [("age", .obj [("$lt", JsVal.num 25)])] = .ok true :=
  C2_null_gt_lt_amended rxcNone rxcNone (.arr []) (.s "age") (.i 25) [] "age"
    (JsVal.num 25) rfl rfl

/-- C6 (amended): in the PHP engine a `$regex` clause whose pattern has
no valid PCRE delimiter structure is a plain non-match — evaluation
completes normally and the caller's request is not failed.  In the
simulator, however, a pattern with clearly unbalanced parentheses makes
the RegExp constructor throw, so the whole match — and with it the
caller's find/delete — fails with a SyntaxError. -/
theorem C6_malformed_regex_amended (rxc rxj : RxOracle) (doc : PhpVal) (k : String)
    (p : String) (tdoc : TsDoc) (k2 : String) (p2 : String)
    (hp : pcreDelimOk p = false) (hp2 : parenProblem p2 = true) :
    phpMatch rxc doc [(.s k, .arr [(.s "$regex", .s p)])] = false ∧
    tsMatch rxj tdoc [(k2, .obj [("$regex", .s p2)])] = .error "SyntaxError" := by
  constructor
  · simp [phpMatch, phpClauses, kq_rx_eq, kq_rx_ne, kq_rx_gt, kq_rx_lt, kq_rx_rx,
      pregTest, phpToString, hp]
  · simp [tsMatch, tsClauses, tsClause, jsToString, jsRegexCompile, hp2]

/-- C6 counterexample: in the simulator the malformed pattern "(" does
not evaluate to a non-match — it throws, failing the caller's request. -/
theorem C6_cex_sim_throws :
    tsMatch rxcNone [("email", JsVal.s "x")] [("email", .obj [("$regex", JsVal.s "(")])] =
      .error "SyntaxError" := rfl

/-- C6 witness. -/
theorem C6_malformed_regex_witness :
    phpMatch rxcNone (.arr [(.s "email", .s "a")])
      [(.s "email", .arr [(.s "$regex", .s "EXAMPLE")])] = false ∧
    tsMatch rxcNone [("email", JsVal.s "a")] [("email", .obj [("$regex", JsVal.s "(")])] =
      .error "SyntaxError" :=
  C6_malformed_regex_amended rxcNone rxcNone (.arr [(.s "email", .s "a")]) "email"
    "EXAMPLE" [("email", JsVal.s "a")] "email" "(" (by decide) (by decide)

/-- C3 (amended): in the simulator a `$regex` clause with a literal
pattern (no metacharacters) matches exactly when the lowercased string
form of the field value contains the lowercased pattern — the
case-insensitive behaviour of `new RegExp(p, 'i').test(String(val))`;
in particular the pattern "EXAMPLE" matches the document whose email is
"john@example.com".  In the PHP engine the operand is handed verbatim
to `preg_match`, which demands a delimited pattern: the undelimited
"EXAMPLE" is a compile error, so the same query matches nothing there
and matching is not case-insensitive by itself. -/
theorem C3_regex_amended (rxc rxj rxj2 : RxOracle) (tdoc : TsDoc) (k : String)
    (p : String) (hp : isLiteralPat p = true) :
    tsMatch rxj tdoc [(k, .obj [("$regex", .s p)])] =
      .ok (ciContainsStr p (jsToString (tsLookup tdoc k))) ∧
    tsMatch rxj2 [("email", JsVal.s "john@example.com")]
      [("email", .obj [("$regex", JsVal.s "EXAMPLE")])] = .ok true ∧
    phpMatch rxc (.arr [(.s "email", .s "john@example.com")])
      [(.s "email", .arr [(.s "$regex", .s "EXAMPLE")])] = false := by
  refine ⟨?_, rfl, rfl⟩
  have hnp := literal_no_paren_problem p hp
  cases hb : ciContainsStr p (jsToString (tsLookup tdoc k)) <;>
    simp [tsMatch, tsClauses, tsClause, jsToString, jsRegexCompile, hnp, hp, hb]

/-- C3 counterexample: with the PHP engine, even under the most
generous PCRE oracle, the pattern "EXAMPLE" matches nothing — so the
claim's concrete case ("EXAMPLE" matches "john@example.com") fails for
the engine the spec calls the core. -/
theorem C3_cex_php_regex_example :
    phpMatch rxcTrue (.arr [(.s "email", .s "john@example.com")])
      [(.s "email", .arr [(.s "$regex", .s "EXAMPLE")])] = false := by decide

/-- C3 witness. -/
theorem C3_regex_witness :
    tsMatch rxcNone [("email", JsVal.s "john@example.com")]
      [("email", .obj [("$regex", JsVal.s "EXAMPLE")])] =
      .ok (ciContainsStr "EXAMPLE"
        (jsToString (tsLookup [("email", JsVal.s "john@example.com")] "email"))) ∧
    ciContainsStr "EXAMPLE"
      (jsToString (tsLookup [("email", JsVal.s "john@example.com")] "email")) = true :=
  ⟨(C3_regex_amended rxcNone rxcNone rxcNone [("email", JsVal.s "john@example.com")]
      "email" "EXAMPLE" (by decide)).1, by decide⟩

/-- C4 (amended): a `$in` clause whose operand is a sequence is decided
by membership, but the notion of equality differs per engine: the
simulator uses strict identity (`Array.includes`), while the PHP engine
uses `in_array` with loose equality, so for example the number 0
loosely matches the entry "admin".  A non-sequence operand fails the
clause in both engines. -/
theorem C4_in_amended (rxc rxc2 rxj rxj2 : RxOracle) (doc doc2 : PhpVal)
    (k k3 : String) (l : PhpArr) (w : PhpVal) (tdoc tdoc2 : TsDoc)
    (k2 k4 : String) (jl : List JsVal) (jw : JsVal)
    (hw : phpIsScalar w = true) (hjw : jsIsArr jw = false) :
    phpMatch rxc doc [(.s k, .arr [(.s "$in", .arr l)])] =
      l.any (fun kv => phpLooseEq (phpLookupVal doc (.s k)) kv.2) ∧
    phpMatch rxc2 doc2 [(.s k3, .arr [(.s "$in", w)])] = false ∧
    tsMatch rxj tdoc [(k2, .obj [("$in", .arr jl)])] =
      .ok (jl.any (fun e => jsStrictEq e (tsLookup tdoc k2))) ∧
    tsMatch rxj2 tdoc2 [(k4, .obj [("$in", jw)])] = .ok false := by
  refine ⟨?_, ?_, ?_, ?_⟩
  · cases hb : l.any (fun kv => phpLooseEq (phpLookupVal doc (.s k)) kv.2) <;>
      simp [phpMatch, phpClauses, kq_in_eq, kq_in_ne, kq_in_gt, kq_in_lt, kq_in_rx,
        kq_in_in, hb]
  · cases w <;> simp_all [phpMatch, phpClauses, kq_in_eq, kq_in_ne, kq_in_gt, kq_in_lt,
      kq_in_rx, kq_in_in, phpIsScalar]
  · cases hb : jl.any (fun e => jsStrictEq e (tsLookup tdoc k2)) <;>
      simp [tsMatch, tsClauses, tsClause, hb]
  · cases jw <;> simp_all [tsMatch, tsClauses, tsClause, jsIsArr]

/-- C4 counterexample: in the PHP engine a document whose role is the
number 0 matches `$in` on the list ["admin", "guest"] although no entry
is element-identical to 0 — `in_array` compares loosely and
"admin" converts to the number 0. -/
theorem C4_cex_php_in_loose :
    phpMatch rxcNone (.arr [(.s "role", .i 0)])
      [(.s "role", .arr [(.s "$in", .arr [(.i 0, .s "admin"), (.i 1, .s "guest")])])] = true ∧
    ([PhpVal.s "admin", PhpVal.s "guest"].all (fun e => !phpIdentical (.i 0) e)) = true := by
  constructor <;> decide

/-- C4 witness. -/
theorem C4_in_witness :
    phpMatch rxcNone (.arr [(.s "role", .s "admin")])
      [(.s "role", .arr [(.s "$in", .arr [(.i 0, .s "admin"), (.i 1, .s "guest")])])] =
      ([(PhpKey.i 0, PhpVal.s "admin"), (PhpKey.i 1, PhpVal.s "guest")].any
        (fun kv => phpLooseEq (phpLookupVal (.arr [(.s "role", .s "admin")]) (.s "role")) kv.2)) ∧
    phpMatch rxcNone (.arr [(.s "role", .s "admin")])
      [(.s "role", .arr [(.s "$in", .s "admin")])] = false ∧
    tsMatch rxcNone [("role", JsVal.s "admin")]
      [("role", .obj [("$in", .arr [JsVal.s "admin", JsVal.s "guest"])])] =
      .ok ([JsVal.s "admin", JsVal.s "guest"].any
        (fun e => jsStrictEq e (tsLookup [("role", JsVal.s "admin")] "role"))) ∧
    tsMatch rxcNone [("role", JsVal.s "admin")]
      [("role", .obj [("$in", JsVal.s "admin")])] = .ok false :=
  C4_in_amended rxcNone rxcNone rxcNone rxcNone (.arr [(.s "role", .s "admin")])
    (.arr [(.s "role", .s "admin")]) "role" "role"
    [(.i 0, .s "admin"), (.i 1, .s "guest")] (.s "admin")
    [("role", JsVal.s "admin")] [("role", JsVal.s "admin")] "role" "role"
    [JsVal.s "admin", JsVal.s "guest"] (JsVal.s "admin") (by decide) (by decide)

/-- C5 (amended): an entry whose criteria is a scalar (null, boolean,
number, or string) is satisfied exactly when the field value is
identical to it, in both engines.  A sequence criteria, however, is not
an equality test: the PHP engine treats any array criteria as an
operator mapping, where the integer key 0 is loosely equal to the
string "$eq", so a one-element sequence [c] acts as `$eq` against the
element c (not against the sequence); and the simulator compares array
criteria by reference, so a structurally equal but distinct sequence
never matches. -/
theorem C5_plain_criteria_amended (rxc rxc2 rxj : RxOracle) (doc doc2 : PhpVal)
    (k k3 : PhpKey) (c : PhpVal) (c0 : PhpVal) (tdoc : TsDoc) (k2 : String)
    (jc : JsVal) (jl : List JsVal) (anyv : JsVal)
    (hc : phpIsScalar c = true) (hjc : jsIsScalar jc = true) :
    phpMatch rxc doc [(k, c)] = phpIdentical (phpLookupVal doc k) c ∧
    phpMatch rxc2 doc2 [(k3, .arr [(.i 0, c0)])] = phpIdentical (phpLookupVal doc2 k3) c0 ∧
    tsMatch rxj tdoc [(k2, jc)] = .ok (jsStrictEq (tsLookup tdoc k2) jc) ∧
    jsStrictEq anyv (.arr jl) = false := by
  refine ⟨?_, ?_, ?_, ?_⟩
  · cases c with
    | arr l2 => simp [phpIsScalar] at hc
    | null =>
        cases hb : phpIdentical (phpLookupVal doc k) PhpVal.null <;> simp [phpMatch, hb]
    | b v =>
        cases hb : phpIdentical (phpLookupVal doc k) (PhpVal.b v) <;> simp [phpMatch, hb]
    | i n =>
        cases hb : phpIdentical (phpLookupVal doc k) (PhpVal.i n) <;> simp [phpMatch, hb]
    | s v =>
        cases hb : phpIdentical (phpLookupVal doc k) (PhpVal.s v) <;> simp [phpMatch, hb]
  · cases hb : phpIdentical (phpLookupVal doc2 k3) c0 <;>
      simp [phpMatch, phpClauses, kq_zero_eq, hb]
  · cases jc with
    | arr l2 => simp [jsIsScalar] at hjc
    | obj l2 => simp [jsIsScalar] at hjc
    | undefined =>
        cases hb : jsStrictEq (tsLookup tdoc k2) JsVal.undefined <;> simp [tsMatch, hb]
    | null =>
        cases hb : jsStrictEq (tsLookup tdoc k2) JsVal.null <;> simp [tsMatch, hb]
    | b v =>
        cases hb : jsStrictEq (tsLookup tdoc k2) (JsVal.b v) <;> simp [tsMatch, hb]
    | num n =>
        cases hb : jsStrictEq (tsLookup tdoc k2) (JsVal.num n) <;> simp [tsMatch, hb]
    | s v =>
        cases hb : jsStrictEq (tsLookup tdoc k2) (JsVal.s v) <;> simp [tsMatch, hb]
  · cases anyv <;> simp [jsStrictEq]

/-- C5 counterexample: a document whose tags field is the sequence [2]
does not match the query whose criteria is the identical sequence [2]
in the PHP engine — the criteria is consumed as an operator mapping
(`$eq` against the element 2), although the claim requires a match for
every criteria shape including sequence literals. -/
theorem C5_cex_array_criteria :
    phpMatch rxcNone (.arr [(.s "tags", .arr [(.i 0, .i 2)])])
      [(.s "tags", .arr [(.i 0, .i 2)])] = false ∧
    phpIdentical (.arr [(.i 0, .i 2)]) (.arr [(.i 0, .i 2)]) = true := by
  constructor <;> decide

/-- C5 witness. -/
theorem C5_plain_criteria_witness :
    phpMatch rxcNone (.arr [(.s "name", .s "John Doe")]) [(.s "name", .s "John Doe")] =
      phpIdentical (phpLookupVal (.arr [(.s "name", .s "John Doe")]) (.s "name"))
        (.s "John Doe") ∧
    phpMatch rxcNone (.arr [(.s "age", .i 5)]) [(.s "age", .arr [(.i 0, .i 5)])] =
      phpIdentical (phpLookupVal (.arr [(.s "age", .i 5)]) (.s "age")) (.i 5) ∧
    tsMatch rxcNone [("name", JsVal.s "John Doe")] [("name", JsVal.s "John Doe")] =
      .ok (jsStrictEq (tsLookup [("name", JsVal.s "John Doe")] "name") (JsVal.s "John Doe")) ∧
    jsStrictEq (JsVal.num 1) (.arr [JsVal.num 1]) = false :=
  C5_plain_criteria_amended rxcNone rxcNone rxcNone
    (.arr [(.s "name", .s "John Doe")]) (.arr [(.s "age", .i 5)])
    (.s "name") (.s "age") (.s "John Doe") (.i 5)
    [("name", JsVal.s "John Doe")] "name" (JsVal.s "John Doe")
    [JsVal.num 1] (JsVal.num 1) (by decide) (by decide)

/-- C1 (amended): the PHP engine's insert reads the current sequence,
appends the stored document and writes the full sequence back; it
assigns the generated id exactly when `isset` fails on `_id` (absent or
null field), in which case every other field is untouched; a
caller-supplied non-null `_id` is preserved along with the whole
document; the returned document always has `_id` set.  The browser
simulator, in contrast, always overwrites `_id` with a freshly
generated id (while also appending the new document). -/
theorem C1_insert_amended (fs : FileState) (doc : PhpArr) (g : String)
    (docs : List TsDoc) (tdoc : TsDoc) (g2 : String) :
    docsOf (phpInsert fs doc g).1 = docsOf fs ++ [.arr (phpInsert fs doc g).2] ∧
    phpIsset (phpInsert fs doc g).2 "_id" = true ∧
    (phpIsset doc "_id" = true → (phpInsert fs doc g).2 = doc) ∧
    (phpIsset doc "_id" = false →
      assocFind (phpInsert fs doc g).2 (.s "_id") = some (.s ("doc_" ++ g)) ∧
      arrUnset (phpInsert fs doc g).2 (.s "_id") = arrUnset doc (.s "_id")) ∧
    tsLookup (dbSimInsert docs tdoc g2).2 "_id" = .s ("doc_" ++ g2) ∧
    (dbSimInsert docs tdoc g2).1 = docs ++ [(dbSimInsert docs tdoc g2).2] := by
  refine ⟨phpInsert_docsOf fs doc g, ?_, phpInsert_ret_isset fs doc g, ?_,
    tsLookup_spreadSet tdoc "_id" (.s ("doc_" ++ g2)), rfl⟩
  · cases h : phpIsset doc "_id" with
    | true => rw [phpInsert_ret_isset fs doc g h]; exact h
    | false =>
        rw [phpInsert_ret_gen fs doc g h]
        exact phpIsset_of_strVal _ "_id" ("doc_" ++ g) (assocFind_arrSet doc (.s "_id") _)
  · intro h
    rw [phpInsert_ret_gen fs doc g h]
    exact ⟨assocFind_arrSet doc (.s "_id") _, arrUnset_arrSet doc (.s "_id") _⟩

/-- C1 counterexample: the simulator does not preserve a caller-supplied
`_id` — inserting a document carrying `_id` "keep" stores and returns a
document whose `_id` is the freshly generated id instead. -/
theorem C1_cex_sim_overwrites_id :
    tsLookup (dbSimInsert [] [("_id", JsVal.s "keep")] "abc").2 "_id" = JsVal.s "doc_abc" ∧
    tsLookup (dbSimInsert [] [("_id", JsVal.s "keep")] "abc").2 "_id" ≠ JsVal.s "keep" := by
  have he : tsLookup (dbSimInsert [] [("_id", JsVal.s "keep")] "abc").2 "_id" =
      JsVal.s "doc_abc" := rfl
  refine ⟨he, ?_⟩
  intro h
  rw [he, JsVal.s.injEq] at h
  exact absurd h (by decide)

/-- C1 witness. -/
theorem C1_insert_witness :
    (phpInsert FileState.missing [(.s "_id", .s "mine"), (.s "x", .i 1)] "g1").2 =
      [(.s "_id", .s "mine"), (.s "x", .i 1)] ∧
    assocFind (phpInsert FileState.missing [(.s "x", .i 1)] "g1").2 (.s "_id") =
      some (.s ("doc_" ++ "g1")) ∧
    docsOf (phpInsert FileState.missing [(.s "x", .i 1)] "g1").1 =
      docsOf FileState.missing ++ [.arr (phpInsert FileState.missing [(.s "x", .i 1)] "g1").2] := by
  refine ⟨?_, ?_, ?_⟩
  · exact (C1_insert_amended FileState.missing [(.s "_id", .s "mine"), (.s "x", .i 1)] "g1"
      [] [] "g2").2.2.1 (by decide)
  · exact ((C1_insert_amended FileState.missing [(.s "x", .i 1)] "g1" [] [] "g2").2.2.2.1
      (by decide)).1
  · exact (C1_insert_amended FileState.missing [(.s "x", .i 1)] "g1" [] [] "g2").1

/-- C9 (amended): the id invariant — every stored document carries a
non-empty, collection-unique `_id` — is preserved by an insert whose
input lacks `_id` (absent or null), provided the generated id is fresh
for the collection.  It is not preserved in general when the input
already carries an `_id` field: such an id is stored verbatim and may
be empty or collide with an existing one. -/
theorem C9_id_invariant_amended (fs : FileState) (doc : PhpArr) (g : String)
    (hinv : idsOk (docsOf fs)) (hid : phpIsset doc "_id" = false)
    (hfresh : ∀ d ∈ docsOf fs, idStrOf d ≠ some ("doc_" ++ g)) :
    idsOk (docsOf (phpInsert fs doc g).1) := by
  have hdocs := phpInsert_docsOf fs doc g
  have hret := phpInsert_ret_gen fs doc g hid
  have hidr : idStrOf (.arr (phpInsert fs doc g).2) = some ("doc_" ++ g) := by
    rw [hret]
    simp [idStrOf, assocFind_arrSet]
  constructor
  · rw [hdocs, List.all_append]
    refine Bool.and_eq_true_iff.mpr ⟨hinv.1, ?_⟩
    have hne : idNonEmpty (.arr (phpInsert fs doc g).2) = true := by
      simp only [idNonEmpty, hidr]
      simpa using doc_prefix_ne_empty g
    simp [hne]
  · rw [hdocs, List.filterMap_append]
    have hsingle : List.filterMap idStrOf [PhpVal.arr (phpInsert fs doc g).2] =
        [("doc_" ++ g)] := by
      simp [hidr]
    rw [hsingle]
    rw [List.nodup_append]
    refine ⟨hinv.2, List.nodup_singleton _, ?_⟩
    intro x hx hxs
    have hxe : x = "doc_" ++ g := by simpa using hxs
    obtain ⟨d, hd, hds⟩ := List.mem_filterMap.mp hx
    rw [hxe] at hds
    exact hfresh d hd hds

/-- C9 counterexample: inserting a document that already carries
`_id` "" persists a document with an empty `_id`, violating the
invariant the claim says every store operation preserves. -/
theorem C9_cex_empty_id :
    phpIsset [(.s "_id", .s "")] "_id" = true ∧
    (docsOf (phpInsert (FileState.contents (some (.arr []))) [(.s "_id", .s "")] "x").1).all
      idNonEmpty = false := by
  constructor <;> decide

/-- C9 witness. -/
theorem C9_id_invariant_witness :
    idsOk (docsOf (phpInsert
      (FileState.contents (some (.arr [(.i 0, .arr [(.s "_id", .s "a")])])))
      [(.s "x", .i 1)] "z").1) :=
  C9_id_invariant_amended
    (FileState.contents (some (.arr [(.i 0, .arr [(.s "_id", .s "a")])])))
    [(.s "x", .i 1)] "z" ⟨by decide, by decide⟩ (by decide) (by decide)
